import Mathlib

/-!
Shallow embedding of the pet-product recommendation UI's core logic:
the data model (`src/types/product.ts`), the client-side filter predicate and
product loader (`src/App.tsx`, `Index`), and the normalization helpers and
special-care option loader (`src/components/FilterPanel.tsx`).

JavaScript idioms are modelled explicitly: optional fields become `Option`,
string falsiness (`a || b`) becomes `jsOr`, `String(x ?? "")` becomes
`rawIdToString`, union-typed fields (`string | string[]`,
`SpecialCareItem[] | Record<string, SpecialCareItem>`) become inductives, and
each `async` loader becomes a pure function from an abstract fetch outcome to
its result/state transition.
-/

/-- A selectable dietary/health special-care tag, `SpecialCareItem` in
`src/types/product.ts`: `{id: string, name: string}`. -/
structure SpecialCareItem where
  id : String
  name : String
deriving DecidableEq, Repr

/-- The `id?: string | number` field of `Product`: a raw identifier is either a
string or an integer. -/
inductive ProductId where
  | str (s : String)
  | num (n : Int)
deriving DecidableEq, Repr

/-- The `benefits?: string | string[]` field of `Product`: either a single
delimited string or a sequence of strings. -/
inductive BenefitsField where
  | str (s : String)
  | seq (items : List String)
deriving DecidableEq, Repr

/-- The `specialcares?: SpecialCareItem[] | Record<string, SpecialCareItem>`
field of `Product`: absent, an array, or a keyed mapping (modelled as an
association list in the mapping's natural iteration order). -/
inductive SpecialCaresField where
  | absent
  | seq (items : List SpecialCareItem)
  | keyed (entries : List (String × SpecialCareItem))
deriving DecidableEq, Repr

/-- The `Product` interface of `src/types/product.ts`; every `?:` field is an
`Option`. -/
structure Product where
  id : Option ProductId
  name : String
  description : Option String
  image : Option String
  img : Option String
  img_thumbnail : Option String
  productType : Option String
  type : Option String
  petType : Option String
  forPregnant : Option Bool
  forLactating : Option Bool
  lifeStage : Option String
  benefits : Option BenefitsField
  specialcares : SpecialCaresField
deriving DecidableEq, Repr

/-- The `FilterState` interface of `src/types/product.ts`. -/
structure FilterState where
  foodType : String
  petType : String
  isPregnant : Bool
  isLactating : Bool
  lifeStage : String
  specialCare : List String
  searchTerm : String
deriving DecidableEq, Repr

/-- JavaScript `a || b` on strings: the empty string is the only falsy string,
so `a || b` yields `b` exactly when `a` is empty. -/
def jsOr (a b : String) : String := if a = "" then b else a

/-- JavaScript `String.prototype.trim` on a character list: drop leading and
trailing whitespace. -/
def trimChars (cs : List Char) : List Char :=
  ((cs.dropWhile Char.isWhitespace).reverse.dropWhile Char.isWhitespace).reverse

/-- JavaScript `s.trim()`. -/
def jsTrim (s : String) : String := String.mk (trimChars s.toList)

/-- JavaScript `s.toLowerCase()` (per code unit, ASCII range). -/
def jsToLower (s : String) : String := String.mk (s.toList.map Char.toLower)

/-- JavaScript `s.charAt(0).toUpperCase() + s.slice(1)`: upper-case the first
code unit and keep the rest unchanged; the empty string stays empty. -/
def upperFirst (s : String) : String :=
  match s.toList with
  | [] => ""
  | c :: rest => String.mk (Char.toUpper c :: rest)

/-- The character class of the split regex `/[\n;,]+/` in
`getNormalizedBenefits` (`src/components/FilterPanel.tsx`). -/
def benefitDelim (c : Char) : Bool := c == '\n' || c == ';' || c == ','

/-- JavaScript `s.split(/[\n;,]+/)` modelled as a split at every single
delimiter character. The regex's `+` additionally collapses delimiter runs,
which only removes empty pieces; the caller drops empty pieces right after
trimming, so the two splits give the same end result. -/
def splitOnDelims : List Char → List (List Char)
  | [] => [[]]
  | c :: rest =>
    if benefitDelim c then [] :: splitOnDelims rest
    else
      match splitOnDelims rest with
      | [] => [[c]]
      | piece :: pieces => (c :: piece) :: pieces

/-- The split/trim/drop-empty/take-3 pipeline applied to a benefits string,
exactly the sentence of the spec for string input (no precondition):
split on newline/semicolon/comma, trim each piece, drop empty pieces, take
the first 3. -/
def splitTrimmedBenefits (s : String) : List String :=
  ((((splitOnDelims s.toList).map (fun cs => jsTrim (String.mk cs))).filter
      (fun b => b != "")).take 3)

/-- Function `getNormalizedBenefits` from `src/components/FilterPanel.tsx`:
an array input is sliced to its first 3 elements; a string input with
non-empty trim is split on `/[\n;,]+/`, trimmed, filtered by truthiness and
sliced to 3; anything else yields `[]`. -/
def getNormalizedBenefits : Option BenefitsField → List String
  | some (.seq items) => items.take 3
  | some (.str s) => if 0 < (jsTrim s).length then splitTrimmedBenefits s else []
  | none => []

/-- Function `getImageSource` from `src/components/FilterPanel.tsx`:
`product.img || ""` — only the `img` field is consulted. -/
def getImageSource (product : Product) : String := jsOr (product.img.getD "") ""

/-- Function `getLifeStageLabel` from `src/components/FilterPanel.tsx`: falsy input maps
to `"-"`, three recognized lower-cased tokens map to fixed labels, and any
other token is returned with its first character upper-cased. -/
def getLifeStageLabel : Option String → String
  | none => "-"
  | some s =>
    if s = "" then "-"
    else
      match jsToLower s with
      | "puppy-kitten" => "Puppy/Kitten"
      | "adult" => "Adult"
      | "senior" => "Senior"
      | _ => upperFirst s

/-- Function `getNormalizedSpecialCares` from `src/components/FilterPanel.tsx`: an array
is returned unchanged, a keyed mapping yields `Object.values`, anything else
yields `[]`. -/
def getNormalizedSpecialCares : SpecialCaresField → List SpecialCareItem
  | .absent => []
  | .seq items => items
  | .keyed entries => entries.map Prod.snd

/-- Boolean test that `needle` occurs as a contiguous run inside `hay`,
modelling JavaScript `hay.includes(needle)` on character lists. -/
def infixOfList (needle : List Char) : List Char → Bool
  | [] => needle.isEmpty
  | c :: rest => needle.isPrefixOf (c :: rest) || infixOfList needle rest

/-- JavaScript `hay.includes(needle)` on strings. -/
def strIncludes (hay needle : String) : Bool := infixOfList needle.toList hay.toList

/-- The special-care id extraction inside the filter `useEffect` of
`src/App.tsx`: an array maps each item to its id, a keyed mapping maps
`Object.values` to ids, anything else yields `[]`. -/
def productCareIds (product : Product) : List String :=
  match product.specialcares with
  | .seq items => items.map SpecialCareItem.id
  | .keyed entries => (entries.map Prod.snd).map SpecialCareItem.id
  | .absent => []

/-- The filter predicate of the filter `useEffect` in `src/App.tsx`
(lines 86–105): an early-return chain of six guarded checks; a product
passing all applicable checks is kept. -/
def matchesProduct (filters : FilterState) (product : Product) : Bool :=
  if filters.searchTerm != "" &&
      !(strIncludes (jsToLower product.name) (jsToLower filters.searchTerm)) then false
  else if filters.petType != "" && product.petType != some filters.petType then false
  else if filters.lifeStage != "" && product.lifeStage != some filters.lifeStage then false
  else if filters.isPregnant && !(product.forPregnant.getD false) then false
  else if filters.isLactating && !(product.forLactating.getD false) then false
  else if decide (0 < filters.specialCare.length) &&
      !(filters.specialCare.any
          (fun filterCareId => (productCareIds product).contains filterCareId)) then false
  else true

/-- Spec-side criterion 1: if `searchTerm` is non-empty, the product name must
contain it case-insensitively as a substring. -/
def passesSearchTerm (filters : FilterState) (product : Product) : Bool :=
  filters.searchTerm == "" ||
    strIncludes (jsToLower product.name) (jsToLower filters.searchTerm)

/-- Spec-side criterion 2: if `petType` is non-empty, the product's petType
must equal it exactly. -/
def passesPetType (filters : FilterState) (product : Product) : Bool :=
  filters.petType == "" || product.petType == some filters.petType

/-- Spec-side criterion 3: if `lifeStage` is non-empty, the product's raw
lifeStage must equal it by exact string equality. -/
def passesLifeStage (filters : FilterState) (product : Product) : Bool :=
  filters.lifeStage == "" || product.lifeStage == some filters.lifeStage

/-- Spec-side criterion 4: if `isPregnant` is set, the product's `forPregnant`
flag must be true. -/
def passesPregnant (filters : FilterState) (product : Product) : Bool :=
  !filters.isPregnant || product.forPregnant.getD false

/-- Spec-side criterion 5: if `isLactating` is set, the product's
`forLactating` flag must be true. -/
def passesLactating (filters : FilterState) (product : Product) : Bool :=
  !filters.isLactating || product.forLactating.getD false

/-- Spec-side criterion 6: if the selected specialCare id list is non-empty,
the product's normalized special-care id set must share at least one id with
it (logical OR across selections). -/
def passesSpecialCare (filters : FilterState) (product : Product) : Bool :=
  filters.specialCare.isEmpty ||
    filters.specialCare.any
      (fun filterCareId => (productCareIds product).contains filterCareId)

/-- The `Index` component's fetch/filter state in `src/App.tsx`. -/
structure IndexState where
  products : List Product
  searchResults : List Product
  isLoading : Bool
  hasSearched : Bool
deriving DecidableEq, Repr

/-- The filter `useEffect` of `src/App.tsx`: recompute `searchResults` by
filtering the loaded products with the current filters. -/
def applyFilterEffect (filters : FilterState) (st : IndexState) : IndexState :=
  { st with searchResults :=
      st.products.filter (fun product => matchesProduct filters product) }

/-- The per-key update operations of `updateFilter`
(`src/components/FilterPanel.tsx`): `{...prev, [key]: value}`. -/
inductive FilterUpdate where
  | setFoodType (v : String)
  | setPetType (v : String)
  | setIsPregnant (v : Bool)
  | setIsLactating (v : Bool)
  | setLifeStage (v : String)
  | setSpecialCare (v : List String)
  | setSearchTerm (v : String)
deriving DecidableEq, Repr

/-- The spread `{...prev, [key]: value}` of `updateFilter`. -/
def applyKey : FilterUpdate → FilterState → FilterState
  | .setFoodType v, prev => { prev with foodType := v }
  | .setPetType v, prev => { prev with petType := v }
  | .setIsPregnant v, prev => { prev with isPregnant := v }
  | .setIsLactating v, prev => { prev with isLactating := v }
  | .setLifeStage v, prev => { prev with lifeStage := v }
  | .setSpecialCare v, prev => { prev with specialCare := v }
  | .setSearchTerm v, prev => { prev with searchTerm := v }

/-- Function `updateFilter` from `src/components/FilterPanel.tsx` (lines 117–129):
apply the keyed update, and when the key is `petType` and the value actually
changed, clear the selected specialCare ids. -/
def updateFilter (u : FilterUpdate) (prev : FilterState) : FilterState :=
  let newState := applyKey u prev
  match u with
  | .setPetType v => if prev.petType ≠ v then { newState with specialCare := [] } else newState
  | _ => newState

/-- A selectable option `{id, name}` produced by the special-care loader
(`SpecialCareOption` in `src/components/FilterPanel.tsx`). -/
structure SpecialCareOption where
  id : String
  name : String
deriving DecidableEq, Repr

/-- A raw record of the special-care taxonomy response
(`ApiSpecialCareItem` in `src/components/FilterPanel.tsx`). -/
structure ApiSpecialCareItem where
  specialcare_id : String
  specialcare_name : String
deriving DecidableEq, Repr

/-- The parsed body of a successful special-care response: either the expected
nested path `json.result[0].specialcares[0].list` holds an array of records,
or that shape is absent (`Array.isArray(list)` is false). -/
inductive SpecialCareBody where
  | withList (list : List ApiSpecialCareItem)
  | malformed
deriving DecidableEq, Repr

/-- The possible outcomes of the one `fetch` in `fetchSpecialCareOptionsApi`:
a transport error (the awaited `fetch`/`json` rejects with a message), a
non-ok HTTP response whose parsed error body carries an optional `message`
(`some "API request failed"` when that body fails to parse), or an ok
response with a parsed body. -/
inductive SpecialCareFetchOutcome where
  | transportError (msg : String)
  | httpError (status : Nat) (errMessage : Option String)
  | success (body : SpecialCareBody)
deriving DecidableEq, Repr

/-- Function `fetchSpecialCareOptionsApi` from `src/components/FilterPanel.tsx`
(lines 33–75), as a pure function from the fetch outcome: empty `petType`
returns `[]` without a call; a transport error is re-thrown; a non-ok status
throws `errorData.message || "Request failed with status ..."`; an ok
response maps the nested list to `{id, name}` options, and returns `[]` when
that nested list shape is absent. -/
def fetchSpecialCareOptionsApi (petType : String)
    (outcome : SpecialCareFetchOutcome) : Except String (List SpecialCareOption) :=
  if petType = "" then .ok []
  else
    match outcome with
    | .transportError msg => .error msg
    | .httpError status errMessage =>
      .error (jsOr (errMessage.getD "")
        ("Request failed with status " ++ toString status))
    | .success .malformed => .ok []
    | .success (.withList list) =>
      .ok (list.map (fun item => ⟨item.specialcare_id, item.specialcare_name⟩))

/-- The special-care slice of `FilterPanel`'s component state. -/
structure PanelState where
  specialCareOptions : List SpecialCareOption
  isLoadingSpecialCare : Bool
  errorSpecialCare : Option String
deriving DecidableEq, Repr

/-- The settled state of the `loadOptions` effect in `FilterPanel`
(lines 95–115): on success the options are replaced and the error stays
cleared; on failure the error message (`err.message || "Failed to load
options"`) is recorded and the options are not touched; the loading flag is
cleared in the `finally` step either way. -/
def settleLoadOptions (petType : String) (outcome : SpecialCareFetchOutcome)
    (st : PanelState) : PanelState :=
  match fetchSpecialCareOptionsApi petType outcome with
  | .ok options =>
    { st with specialCareOptions := options, isLoadingSpecialCare := false,
              errorSpecialCare := none }
  | .error msg =>
    { st with isLoadingSpecialCare := false,
              errorSpecialCare := some (jsOr msg "Failed to load options") }

/-- A raw product record of the catalog response, before the mapping in
`fetchProducts` (`src/App.tsx`); `lifeStages` is the raw keyed mapping whose
first value becomes the product's `lifeStage`. -/
structure RawProduct where
  id : Option ProductId
  name : Option String
  type : Option String
  lifeStages : Option (List (String × String))
  forPregnant : Option Bool
  forLactating : Option Bool
  specialcares : SpecialCaresField
  description : Option String
  image : Option String
  img : Option String
  img_thumbnail : Option String
  benefits : Option BenefitsField
deriving DecidableEq, Repr

/-- JavaScript `String(prod.id ?? "")`: an absent id becomes `""`, a string id
stays itself, a numeric id becomes its decimal representation. -/
def rawIdToString : Option ProductId → String
  | none => ""
  | some (.str s) => s
  | some (.num n) => toString n

/-- JavaScript `prod.lifeStages ? Object.values(prod.lifeStages)[0] ?? "" : ""`. -/
def firstLifeStage : Option (List (String × String)) → String
  | none => ""
  | some entries => ((entries.map Prod.snd).head?).getD ""

/-- The per-record mapping of `fetchProducts` in `src/App.tsx` (lines 66–74):
spread the raw record, coerce the id to a string, default the name to
`"Unknown Product"`, force `productType` to the requested food type, resolve
`petType` from the raw `type` field, take the first life-stage value, and
carry `specialcares` through unnormalized. -/
def mapRawProduct (foodType : String) (prod : RawProduct) : Product :=
  { id := some (.str (rawIdToString prod.id))
    name := jsOr (prod.name.getD "") "Unknown Product"
    description := prod.description
    image := prod.image
    img := prod.img
    img_thumbnail := prod.img_thumbnail
    productType := some foodType
    type := prod.type
    petType := some (jsOr (prod.type.getD "") "")
    forPregnant := prod.forPregnant
    forLactating := prod.forLactating
    lifeStage := some (firstLifeStage prod.lifeStages)
    benefits := prod.benefits
    specialcares := prod.specialcares }

/-- The parsed body of a catalog response: either `data.result.products` is a
keyed mapping of raw records, or that path is absent (`|| {}` makes it an
empty mapping). -/
inductive ProductsBody where
  | withProducts (products : List (String × RawProduct))
  | noProducts
deriving DecidableEq, Repr

/-- The possible outcomes of the one `fetch` in `fetchProducts`: a transport
failure, or an HTTP response with an ok flag and, when `response.json()`
succeeds, a parsed body (`none` models a JSON parse failure). -/
inductive ProductFetchOutcome where
  | transportError
  | httpResponse (ok : Bool) (parsed : Option ProductsBody)
deriving DecidableEq, Repr

/-- The `try` block of `fetchProducts` in `src/App.tsx`: `some products` when
the fetch, the status check and the JSON parse all succeed (mapping every
value of `result.products`), `none` when any of them throws. -/
def fetchProductsResult (foodType : String) (outcome : ProductFetchOutcome) :
    Option (List Product) :=
  match outcome with
  | .transportError => none
  | .httpResponse ok parsed =>
    if !ok then none
    else
      match parsed with
      | none => none
      | some .noProducts => some []
      | some (.withProducts entries) =>
        some ((entries.map Prod.snd).map (mapRawProduct foodType))

/-- Whether the outcome is one of the failure modes of the product fetch:
transport failure, non-success status, or parse failure. -/
def fetchFailed : ProductFetchOutcome → Bool
  | .transportError => true
  | .httpResponse ok parsed => !ok || parsed.isNone

/-- The whole `fetchProducts` run of `src/App.tsx` (lines 37–84) as a state
transition: empty `foodType` just clears the products and returns early;
otherwise the products are replaced on success and emptied in the `catch` on
any failure, and the `finally` step clears `isLoading` and sets
`hasSearched` regardless of outcome. -/
def runFetchProducts (foodType : String) (outcome : ProductFetchOutcome)
    (st : IndexState) : IndexState :=
  if foodType = "" then { st with products := [] }
  else
    match fetchProductsResult foodType outcome with
    | some ps => { st with products := ps, isLoading := false, hasSearched := true }
    | none => { st with products := [], isLoading := false, hasSearched := true }

lemma splitOnDelims_ne_nil (cs : List Char) : splitOnDelims cs ≠ [] := by
  induction cs with
  | nil => simp [splitOnDelims]
  | cons c rest ih =>
    unfold splitOnDelims
    by_cases h : benefitDelim c
    · simp [h]
    · simp only [h]
      cases hr : splitOnDelims rest <;> simp

lemma mem_of_mem_splitOnDelims {cs piece : List Char} (hp : piece ∈ splitOnDelims cs)
    {c : Char} (hc : c ∈ piece) : c ∈ cs := by
  induction cs generalizing piece with
  | nil =>
    simp [splitOnDelims] at hp
    subst hp
    exact absurd hc (List.not_mem_nil c)
  | cons d rest ih =>
    unfold splitOnDelims at hp
    by_cases h : benefitDelim d
    · simp only [h, if_true, List.mem_cons] at hp
      rcases hp with hp | hp
      · subst hp; exact absurd hc (List.not_mem_nil c)
      · exact List.mem_cons_of_mem d (ih hp hc)
    · simp only [h, if_false, Bool.false_eq_true] at hp
      rcases hr : splitOnDelims rest with _ | ⟨p, ps⟩
      · exact absurd hr (splitOnDelims_ne_nil rest)
      · rw [hr] at hp
        simp only [List.mem_cons] at hp
        rcases hp with hp | hp
        · subst hp
          rcases List.mem_cons.mp hc with hcd | hcp
          · subst hcd; exact List.mem_cons_self c rest
          · exact List.mem_cons_of_mem d (ih (by rw [hr]; exact List.mem_cons_self p ps) hcp)
        · exact List.mem_cons_of_mem d (ih (by rw [hr]; exact List.mem_cons_of_mem p hp) hc)

lemma jsTrim_eq_empty_of_all_whitespace {piece : List Char}
    (h : ∀ c ∈ piece, Char.isWhitespace c) : jsTrim (String.mk piece) = "" := by
  have hdrop : piece.dropWhile Char.isWhitespace = [] :=
    List.dropWhile_eq_nil_iff.mpr h
  simp [jsTrim, trimChars, hdrop]

lemma all_whitespace_of_jsTrim_empty {s : String} (h : (jsTrim s).length = 0) :
    ∀ c ∈ s.toList, Char.isWhitespace c := by
  have htrim : trimChars s.toList = [] := by
    have : (jsTrim s).toList = [] := List.length_eq_zero.mp h
    simpa [jsTrim] using this
  unfold trimChars at htrim
  rw [List.reverse_eq_nil_iff] at htrim
  have hall : ∀ c ∈ (s.toList.dropWhile Char.isWhitespace).reverse, Char.isWhitespace c :=
    List.dropWhile_eq_nil_iff.mp htrim
  intro c hc
  have hc' : c ∈ s.toList.takeWhile Char.isWhitespace ++
      s.toList.dropWhile Char.isWhitespace := by
    rw [List.takeWhile_append_dropWhile]
    exact hc
  rcases List.mem_append.mp hc' with hc1 | hc2
  · exact List.mem_takeWhile_imp hc1
  · exact hall c (List.mem_reverse.mpr hc2)

lemma splitTrimmedBenefits_eq_nil_of_trim_empty {s : String}
    (h : ¬ 0 < (jsTrim s).length) : splitTrimmedBenefits s = [] := by
  have hws : ∀ c ∈ s.toList, Char.isWhitespace c :=
    all_whitespace_of_jsTrim_empty (Nat.eq_zero_of_not_pos h)
  unfold splitTrimmedBenefits
  have hfil :
      ((splitOnDelims s.toList).map (fun cs => jsTrim (String.mk cs))).filter
        (fun b => b != "") = [] := by
    rw [List.filter_eq_nil_iff]
    intro b hb
    rcases List.mem_map.mp hb with ⟨piece, hpiece, rfl⟩
    have : jsTrim (String.mk piece) = "" :=
      jsTrim_eq_empty_of_all_whitespace
        (fun c hc => hws c (mem_of_mem_splitOnDelims hpiece hc))
    simp [this]
  rw [hfil]
  rfl

/-- C5: the benefits normalizer takes the first 3 elements of a sequence input
in original order (a 5-element input yields exactly its first 3); on every
string input it equals the split/trim/drop-empty/take-3 pipeline, so the
string "a; b,c\nd" yields ["a","b","c"]; absent input yields the empty
sequence; as a total function it never raises. -/
theorem benefits_normalizer_spec :
    (∀ items : List String, getNormalizedBenefits (some (.seq items)) = items.take 3) ∧
    (∀ s : String, getNormalizedBenefits (some (.str s)) = splitTrimmedBenefits s) ∧
    getNormalizedBenefits none = [] ∧
    (∀ a b c d e : String,
      getNormalizedBenefits (some (.seq [a, b, c, d, e])) = [a, b, c]) ∧
    getNormalizedBenefits (some (.str "a; b,c\nd")) = ["a", "b", "c"] := by
  refine ⟨fun items => rfl, fun s => ?_, rfl, fun a b c d e => rfl, by decide⟩
  simp only [getNormalizedBenefits]
  by_cases h : 0 < (jsTrim s).length
  · rw [if_pos h]
  · rw [if_neg h, splitTrimmedBenefits_eq_nil_of_trim_empty h]

/-- C6: the life-stage label normalizer maps absent or empty input to the
literal "-"; the tokens "puppy-kitten", "adult", "senior" compared
case-insensitively map to "Puppy/Kitten", "Adult", "Senior"; any other
non-empty token is returned with its first character upper-cased and the rest
unchanged. -/
theorem life_stage_label_spec :
    getLifeStageLabel none = "-" ∧
    getLifeStageLabel (some "") = "-" ∧
    (∀ s : String, jsToLower s = "puppy-kitten" →
      getLifeStageLabel (some s) = "Puppy/Kitten") ∧
    (∀ s : String, jsToLower s = "adult" → getLifeStageLabel (some s) = "Adult") ∧
    (∀ s : String, jsToLower s = "senior" → getLifeStageLabel (some s) = "Senior") ∧
    (∀ s : String, s ≠ "" → jsToLower s ≠ "puppy-kitten" → jsToLower s ≠ "adult" →
      jsToLower s ≠ "senior" → getLifeStageLabel (some s) = upperFirst s) := by
  refine ⟨rfl, rfl, ?_, ?_, ?_, ?_⟩ <;> intro s
  · intro h
    have hne : s ≠ "" := by rintro rfl; exact absurd h (by decide)
    simp only [getLifeStageLabel]
    rw [if_neg hne, h]
    rfl
  · intro h
    have hne : s ≠ "" := by rintro rfl; exact absurd h (by decide)
    simp only [getLifeStageLabel]
    rw [if_neg hne, h]
    rfl
  · intro h
    have hne : s ≠ "" := by rintro rfl; exact absurd h (by decide)
    simp only [getLifeStageLabel]
    rw [if_neg hne, h]
    rfl
  · intro hne h1 h2 h3
    simp only [getLifeStageLabel]
    rw [if_neg hne]

/-- Witness for C6: the recognized-token clause at "SENIOR" and the default
clause at "giant". -/
theorem life_stage_label_spec_witness :
    getLifeStageLabel (some "SENIOR") = "Senior" ∧
    getLifeStageLabel (some "giant") = "Giant" := by
  constructor
  · exact life_stage_label_spec.2.2.2.2.1 "SENIOR" (by decide)
  · have h := life_stage_label_spec.2.2.2.2.2 "giant" (by decide) (by decide)
      (by decide) (by decide)
    rw [h]
    decide

/-- C7: the special-care normalizer returns a sequence input unchanged, returns
the values of a mapping input as a sequence (a 2-entry mapping of {id,name}
pairs yields the 2-element sequence of both pairs), and returns the empty
sequence for absent input. -/
theorem special_cares_normalizer_spec :
    (∀ items : List SpecialCareItem, getNormalizedSpecialCares (.seq items) = items) ∧
    (∀ entries : List (String × SpecialCareItem),
      getNormalizedSpecialCares (.keyed entries) = entries.map Prod.snd) ∧
    getNormalizedSpecialCares .absent = [] ∧
    getNormalizedSpecialCares
        (.keyed [("x", ⟨"1", "Low Fat"⟩), ("y", ⟨"2", "Renal"⟩)]) =
      [⟨"1", "Low Fat"⟩, ⟨"2", "Renal"⟩] :=
  ⟨fun _ => rfl, fun _ => rfl, rfl, rfl⟩

/-- A product that carries only the alternate `image` and `img_thumbnail`
fields and no `img` field. -/
def onlyAlternateImagesProduct : Product :=
  ⟨none, "Alt Product", none, some "https://cdn.example/alt.png", none,
   some "https://cdn.example/thumb.png", none, none, none, none, none, none,
   none, .absent⟩

/-- C10: the image-source resolver consults only the `img` field — it returns
`img` when present and non-empty and the empty string otherwise; the
alternate `image` and `img_thumbnail` fields are never consulted, so a
product carrying only those fields gets the no-image fallback. -/
theorem image_source_spec :
    (∀ (p : Product) (s : String), p.img = some s → s ≠ "" → getImageSource p = s) ∧
    (∀ p : Product, p.img = none ∨ p.img = some "" → getImageSource p = "") ∧
    (∀ (p : Product) (v w : Option String),
      getImageSource { p with image := v, img_thumbnail := w } = getImageSource p) ∧
    getImageSource onlyAlternateImagesProduct = "" := by
  refine ⟨?_, ?_, fun p v w => rfl, rfl⟩
  · intro p s himg hs
    simp [getImageSource, himg, jsOr, hs]
  · intro p h
    rcases h with h | h <;> simp [getImageSource, h, jsOr]

/-- Witness for C10: the non-empty `img` clause at a concrete product, and the
empty/absent clause at `onlyAlternateImagesProduct`. -/
theorem image_source_spec_witness :
    getImageSource { onlyAlternateImagesProduct with img := some "https://cdn.example/main.png" } =
      "https://cdn.example/main.png" ∧
    getImageSource onlyAlternateImagesProduct = "" :=
  ⟨image_source_spec.1 _ "https://cdn.example/main.png" rfl (by decide),
   image_source_spec.2.1 onlyAlternateImagesProduct (Or.inl rfl)⟩

/-- A raw catalog record with no id and no name. -/
def anonymousRawProduct : RawProduct :=
  ⟨none, none, some "dog", none, none, none, .absent, none, none, none, none, none⟩

/-- C9: every product produced by the catalog mapping has a string id (the raw
id coerced to a string, an absent id becoming ""), a non-empty name (an
absent or empty raw name becoming "Unknown Product"), and a `productType`
equal to the requested food type, never taken from the raw record. -/
theorem loader_mapping_spec (foodType : String) (prod : RawProduct) :
    (mapRawProduct foodType prod).id = some (.str (rawIdToString prod.id)) ∧
    rawIdToString none = "" ∧
    (mapRawProduct foodType prod).name ≠ "" ∧
    (prod.name = none ∨ prod.name = some "" →
      (mapRawProduct foodType prod).name = "Unknown Product") ∧
    (mapRawProduct foodType prod).productType = some foodType := by
  refine ⟨rfl, rfl, ?_, ?_, rfl⟩
  · show jsOr (prod.name.getD "") "Unknown Product" ≠ ""
    unfold jsOr
    by_cases h : prod.name.getD "" = "" <;> simp [h]
  · intro h
    show jsOr (prod.name.getD "") "Unknown Product" = "Unknown Product"
    rcases h with h | h <;> simp [h, jsOr]

/-- Witness for C9 at the concrete food type "dry" and a raw record with no id
and no name. -/
theorem loader_mapping_spec_witness :
    (mapRawProduct "dry" anonymousRawProduct).id = some (.str "") ∧
    (mapRawProduct "dry" anonymousRawProduct).name = "Unknown Product" ∧
    (mapRawProduct "dry" anonymousRawProduct).productType = some "dry" :=
  ⟨(loader_mapping_spec "dry" anonymousRawProduct).1,
   (loader_mapping_spec "dry" anonymousRawProduct).2.2.2.1 (Or.inl rfl),
   (loader_mapping_spec "dry" anonymousRawProduct).2.2.2.2⟩

/-- C4: changing the `petType` field to a different value through
`updateFilter` clears any previously selected specialCare ids, and the new
petType is recorded. -/
theorem pet_type_change_clears_special_care (prev : FilterState) (v : String)
    (h : prev.petType ≠ v) :
    (updateFilter (.setPetType v) prev).specialCare = [] ∧
    (updateFilter (.setPetType v) prev).petType = v := by
  unfold updateFilter applyKey
  simp [h]

/-- Witness for C4: changing petType from "dog" to "cat" clears the selected
specialCare ids ["1", "2"]. -/
theorem pet_type_change_clears_special_care_witness :
    (updateFilter (.setPetType "cat")
        ⟨"dry", "dog", false, false, "", ["1", "2"], ""⟩).specialCare = [] ∧
    (updateFilter (.setPetType "cat")
        ⟨"dry", "dog", false, false, "", ["1", "2"], ""⟩).petType = "cat" :=
  pet_type_change_clears_special_care ⟨"dry", "dog", false, false, "", ["1", "2"], ""⟩
    "cat" (by decide)

lemma decide_length_pos (l : List String) : decide (0 < l.length) = !l.isEmpty := by
  cases l <;> simp

/-- C1: the filter predicate equals the conjunction of the six independent
criteria — false as soon as any enabled criterion fails regardless of the
others, true exactly when every enabled criterion passes: non-empty
searchTerm requires a case-insensitive substring of the name, non-empty
petType requires exact equality, non-empty lifeStage requires exact raw
string equality, isPregnant/isLactating require the corresponding flags, and
a non-empty specialCare selection requires at least one shared id with the
product's normalized special-care ids. -/
theorem filter_predicate_conjunction (filters : FilterState) (product : Product) :
    matchesProduct filters product =
      (passesSearchTerm filters product && passesPetType filters product &&
       passesLifeStage filters product && passesPregnant filters product &&
       passesLactating filters product && passesSpecialCare filters product) := by
  unfold matchesProduct passesSearchTerm passesPetType passesLifeStage passesPregnant
    passesLactating passesSpecialCare
  rw [decide_length_pos]
  simp only [bne]
  split_ifs with h1 h2 h3 h4 h5 h6 <;> simp_all
  refine ⟨⟨⟨⟨⟨?_, ?_⟩, ?_⟩, ?_⟩, ?_⟩, ?_⟩
  · exact or_iff_not_imp_left.mpr h1
  · exact or_iff_not_imp_left.mpr h2
  · exact or_iff_not_imp_left.mpr h3
  · cases hp : filters.isPregnant
    · exact Or.inl rfl
    · exact Or.inr (h4 hp)
  · cases hl : filters.isLactating
    · exact Or.inl rfl
    · exact Or.inr (h5 hl)
  · exact or_iff_not_imp_left.mpr h6

/-- C8: the filter predicate is a total boolean-valued function over all
Product/FilterState combinations, whatever shape the `specialcares` field
has, so it never raises; and the filtering step is pure — it leaves the
product list untouched and re-running it on the same inputs yields the
identical result. -/
theorem filter_predicate_total_and_pure (filters : FilterState) (st : IndexState)
    (product : Product) :
    (matchesProduct filters product = true ∨ matchesProduct filters product = false) ∧
    (applyFilterEffect filters st).products = st.products ∧
    applyFilterEffect filters (applyFilterEffect filters st) =
      applyFilterEffect filters st := by
  refine ⟨?_, rfl, rfl⟩
  cases matchesProduct filters product
  · exact Or.inr rfl
  · exact Or.inl rfl

/-- Counterexample to C2: an ok response whose expected nested list shape is
absent makes the loader return `ok []` — no distinguishable error is
surfaced; and on a genuine transport error the caller's catch records the
message but does not empty a previously populated option list. -/
theorem special_care_error_claim_counterexample :
    fetchSpecialCareOptionsApi "dog"
        (.success .malformed) = Except.ok [] ∧
    (settleLoadOptions "dog" (.transportError "network down")
        ⟨[⟨"1", "Low Fat"⟩], false, none⟩).specialCareOptions = [⟨"1", "Low Fat"⟩] :=
  ⟨rfl, rfl⟩

/-- C2 (amended): for every non-empty pet species, a transport error or a
non-success status surfaces a distinguishable error (the transport message,
or the error body's message defaulting to "Request failed with status ...")
whose message the caller records for display while leaving the option list
unchanged — hence empty on a first load — and clearing the loading flag; an
ok response with the nested list shape absent instead yields `ok []` with no
error; the model consumes a single fetch outcome per call, so the call is
never retried. -/
theorem special_care_error_handling (petType msg : String) (status : Nat)
    (errMessage : Option String) (st : PanelState) (hpt : petType ≠ "") :
    fetchSpecialCareOptionsApi petType (.transportError msg) = .error msg ∧
    fetchSpecialCareOptionsApi petType (.httpError status errMessage) =
      .error (jsOr (errMessage.getD "")
        ("Request failed with status " ++ toString status)) ∧
    (settleLoadOptions petType (.transportError msg) st).specialCareOptions =
      st.specialCareOptions ∧
    (settleLoadOptions petType (.transportError msg) st).errorSpecialCare =
      some (jsOr msg "Failed to load options") ∧
    (settleLoadOptions petType (.transportError msg) st).isLoadingSpecialCare = false ∧
    fetchSpecialCareOptionsApi petType (.success .malformed) = Except.ok [] := by
  unfold settleLoadOptions fetchSpecialCareOptionsApi
  simp [hpt]

/-- Witness for C2 (amended) at species "dog", a concrete transport error and
an initial (empty) panel state. -/
theorem special_care_error_handling_witness :
    fetchSpecialCareOptionsApi "dog" (.transportError "network down") =
      .error "network down" ∧
    (settleLoadOptions "dog" (.transportError "network down")
        ⟨[], false, none⟩).specialCareOptions = [] ∧
    (settleLoadOptions "dog" (.transportError "network down")
        ⟨[], false, none⟩).errorSpecialCare = some "network down" := by
  have h := special_care_error_handling "dog" "network down" 500 none
    ⟨[], false, none⟩ (by decide)
  refine ⟨h.1, h.2.2.1, ?_⟩
  rw [h.2.2.2.1]
  rfl

/-- C3: for every non-empty food type and every fetch outcome, the product
loader's run — a total state function, so no exception reaches the UI
layer — clears the loading flag and sets the has-searched flag (the
`finally` effects) whatever the outcome, and on any failure mode (transport
failure, non-success status, parse failure) the product list ends empty. -/
theorem product_loader_fail_soft (foodType : String) (outcome : ProductFetchOutcome)
    (st : IndexState) (h : foodType ≠ "") :
    (runFetchProducts foodType outcome st).isLoading = false ∧
    (runFetchProducts foodType outcome st).hasSearched = true ∧
    (fetchFailed outcome = true → (runFetchProducts foodType outcome st).products = []) := by
  unfold runFetchProducts
  rw [if_neg h]
  rcases outcome with _ | ⟨ok, parsed⟩
  · exact ⟨rfl, rfl, fun _ => rfl⟩
  · cases ok <;> rcases parsed with _ | (entries | _) <;>
      simp [fetchProductsResult, fetchFailed]

/-- Witness for C3 at food type "dry", a transport error and a loading state. -/
theorem product_loader_fail_soft_witness :
    (runFetchProducts "dry" .transportError ⟨[], [], true, false⟩).isLoading = false ∧
    (runFetchProducts "dry" .transportError ⟨[], [], true, false⟩).hasSearched = true ∧
    (runFetchProducts "dry" .transportError ⟨[], [], true, false⟩).products = [] := by
  have h := product_loader_fail_soft "dry" .transportError ⟨[], [], true, false⟩ (by decide)
  exact ⟨h.1, h.2.1, h.2.2 rfl⟩
